import Mathlib

/-!
Shallow embedding of `src/main.py` of the `zotero-synchroniser` repository.

The core under verification is the record reconciliation engine
(`compare_records`, lines 66-82), the record lookup (`get_record_by_title`,
lines 118-122) and the report renderer (`print_report`, lines 36-63).
Records are Python dicts with a fixed shape; they are embedded as structures.
The fuzzy similarity scorer (`thefuzz.process.extract`'s `WRatio` scorer
composed with its default string processor) is an external library capability
and is abstracted as a parameter `scorer : String → String → Nat`; the
selection logic layered on top of it by lines 70-74 (top-5 extraction, the
score-to-title dict inversion, `max`, dict lookup) is embedded concretely.
Fallible Python operations (`max` of an empty sequence, subscripting `None`,
indexing an empty string) are embedded in `Except String`.
-/

/-- A website record as built by `get_website_records` (line 93):
a dict with keys `title` and `authors` (both strings). -/
structure WebsiteRecord where
  title : String
  authors : String
deriving DecidableEq

/-- One creator dict of a Zotero record (keys used at lines 58-60). -/
structure Creator where
  firstName : String
  lastName : String
  creatorType : String
deriving DecidableEq

/-- A calendar date, standing for the Python `datetime` stored in a Zotero
record; only `strftime('%Y/%m/%d')` (line 63) is applied to it. -/
structure PubDate where
  year : Nat
  month : Nat
  day : Nat
deriving DecidableEq

/-- A Zotero record as built by `get_zotero_records` (lines 107-110):
a dict with keys `title`, `authors` (the creators), `date` and `url`. -/
structure ZoteroRecord where
  title : String
  authors : List Creator
  date : PubDate
  url : String
deriving DecidableEq

/-- `MatchType` enum (lines 15-18). -/
inductive MatchType where
  | success
  | not_found_on_zotero
  | not_found_on_website
deriving DecidableEq

/-- The name of an enum member, as Python's `match.type.name` (line 49). -/
def MatchType.pyName : MatchType → String
  | MatchType.success => "success"
  | MatchType.not_found_on_zotero => "not_found_on_zotero"
  | MatchType.not_found_on_website => "not_found_on_website"

/-- `Match` dataclass (lines 21-26): an outcome with nullable record fields. -/
structure Match where
  type : MatchType
  ratio : Nat
  web_record : Option WebsiteRecord
  zotero_record : Option ZoteroRecord
deriving DecidableEq

/-- `get_record_by_title` (lines 118-122): first record whose title equals
`title`, else `None`. -/
def get_record_by_title (records : List ZoteroRecord) (title : String) :
    Option ZoteroRecord :=
  match records with
  | [] => none
  | r :: rs => if r.title = title then some r else get_record_by_title rs title

/-- The maximum similarity score of `query` against the pool, as computed at
line 72: `max` over the keys of the score-to-title dict built from
`process.extract`.  `process.extract` returns the top five `(title, score)`
pairs sorted by descending score, so the maximum dict key equals the maximum
score over the whole pool; for an empty pool (where line 72 would raise)
this function is only consulted behind the emptiness guard of
`compare_loop`. -/
def maxScore (scorer : String → String → Nat) (query : String)
    (pool : List String) : Nat :=
  (pool.map (scorer query)).foldl Nat.max 0

/-- The pool title selected at line 74 (`ratios[max_closeness]`).
`process.extract` returns the five highest-scoring `(title, score)` pairs,
sorted by descending score and stable with respect to pool order; the dict
comprehension of line 71 maps each score to the last title carrying it, so
the title looked up for the maximal score is the last title among the first
`min 5 k` of the `k` pool titles attaining the maximal score, in pool
order. -/
def selectTitle (scorer : String → String → Nat) (query : String)
    (pool : List String) : String :=
  (((pool.filter
      (fun t => decide (scorer query t = maxScore scorer query pool))).take 5).getLast?).getD ""

/-- The loop of lines 69-79 of `compare_records`: iterate the website records,
threading the mutable pool `zotero_titles`; return the accumulated summary
and the final pool.  A website record processed while the pool is empty
reproduces the `ValueError` that `max(list(ratios.keys()))` raises on an
empty sequence at line 72. -/
def compare_loop (scorer : String → String → Nat) (match_threshold : Nat)
    (zotero_records : List ZoteroRecord) :
    List WebsiteRecord → List String → Except String (List Match × List String)
  | [], pool => Except.ok ([], pool)
  | web_record :: rest, pool =>
    if pool = [] then Except.error "max() arg is an empty sequence"
    else
      let max_closeness := maxScore scorer web_record.title pool
      if match_threshold < max_closeness then
        let match_title := selectTitle scorer web_record.title pool
        match compare_loop scorer match_threshold zotero_records rest
            (pool.erase match_title) with
        | Except.error e => Except.error e
        | Except.ok (summary, finalPool) =>
          Except.ok (Match.mk MatchType.success max_closeness (some web_record)
            (get_record_by_title zotero_records match_title) :: summary, finalPool)
      else
        match compare_loop scorer match_threshold zotero_records rest pool with
        | Except.error e => Except.error e
        | Except.ok (summary, finalPool) =>
          Except.ok (Match.mk MatchType.not_found_on_zotero max_closeness
            (some web_record) none :: summary, finalPool)

/-- The `Match` appended for a leftover pool title at line 81. -/
def catalogOnlyMatch (zotero_records : List ZoteroRecord) (t : String) : Match :=
  Match.mk MatchType.not_found_on_website 0 none
    (get_record_by_title zotero_records t)

/-- `compare_records` (lines 66-82): initialize the pool with all catalog
titles in input order, run the website loop, then append one
`not_found_on_website` outcome per title left in the pool, in pool order. -/
def compare_records (scorer : String → String → Nat)
    (website_records : List WebsiteRecord) (zotero_records : List ZoteroRecord)
    (match_threshold : Nat) : Except String (List Match) :=
  match compare_loop scorer match_threshold zotero_records website_records
      (zotero_records.map ZoteroRecord.title) with
  | Except.error e => Except.error e
  | Except.ok (summary, finalPool) =>
    Except.ok (summary ++ finalPool.map (catalogOnlyMatch zotero_records))

/-- Zero-pad the decimal representation of `n` to width `w`, as Python's
`strftime` does for its numeric directives. -/
def padZeros (w : Nat) (n : Nat) : String :=
  String.mk (List.replicate (w - (Nat.repr n).data.length) '0' ++ (Nat.repr n).data)

/-- `date.strftime('%Y/%m/%d')` at line 63. -/
def strftimeYMD (d : PubDate) : String :=
  padZeros 4 d.year ++ "/" ++ padZeros 2 d.month ++ "/" ++ padZeros 2 d.day

/-- Python `s[0]` on a string: its first character, or an `IndexError` when
the string is empty (as `author["firstName"][0]` at line 60 would raise). -/
def pyHead (s : String) : Except String Char :=
  match s.data with
  | [] => Except.error "IndexError: string index out of range"
  | c :: _ => Except.ok c

/-- Python `s[:-2]`: the string without its final two characters (all of it
when it is shorter than two characters), as `authors[:-2]` at line 61. -/
def pyDropLast2 (s : String) : String :=
  String.mk (s.data.take (s.data.length - 2))

/-- The accumulation loop of lines 57-60: over the creators in order, append
`f'{author["firstName"][0]}.{author["lastName"]}, '` for every creator whose
`creatorType` is `"author"`. -/
def renderAuthorsLoop : List Creator → Except String String
  | [] => Except.ok ""
  | c :: cs =>
    if c.creatorType = "author" then
      match pyHead c.firstName with
      | Except.error e => Except.error e
      | Except.ok ch =>
        match renderAuthorsLoop cs with
        | Except.error e => Except.error e
        | Except.ok rest =>
          Except.ok (String.mk [ch] ++ "." ++ c.lastName ++ ", " ++ rest)
    else renderAuthorsLoop cs

/-- Lines 57-61: the authors field of a catalog-only row — the accumulation
loop followed by stripping the trailing two characters. -/
def renderAuthors (creators : List Creator) : Except String String :=
  match renderAuthorsLoop creators with
  | Except.error e => Except.error e
  | Except.ok s => Except.ok (pyDropLast2 s)

/-- One data row of the matched table (lines 48-49); subscripting a `None`
record raises. -/
def renderSuccessRow (m : Match) : Except String String :=
  match m.web_record, m.zotero_record with
  | some w, some z =>
    Except.ok (w.title ++ "\t" ++ z.title ++ "\t" ++ MatchType.pyName m.type
      ++ "\t" ++ Nat.repr m.ratio ++ "\n")
  | _, _ => Except.error "TypeError: NoneType is not subscriptable"

/-- One data row of the website-only list (line 53). -/
def renderWebsiteOnlyRow (m : Match) : Except String String :=
  match m.web_record with
  | some w => Except.ok (w.title ++ "\n")
  | none => Except.error "TypeError: NoneType is not subscriptable"

/-- One data row of the catalog-only table (lines 57-63). -/
def renderCatalogOnlyRow (m : Match) : Except String String :=
  match m.zotero_record with
  | none => Except.error "TypeError: NoneType is not subscriptable"
  | some r =>
    match renderAuthors r.authors with
    | Except.error e => Except.error e
    | Except.ok authors =>
      Except.ok (r.title ++ "\t" ++ authors ++ "\t" ++ r.url ++ "\t"
        ++ strftimeYMD r.date ++ "\n")

/-- Outcome-type tests used by the filters of lines 37-39 and the
`if match.type == ...` guards of lines 47, 52 and 56. -/
def isSuccessB (m : Match) : Bool := decide (m.type = MatchType.success)

/-- Test for `MatchType.not_found_on_zotero`. -/
def isNfzB (m : Match) : Bool := decide (m.type = MatchType.not_found_on_zotero)

/-- Test for `MatchType.not_found_on_website`. -/
def isNfwB (m : Match) : Bool := decide (m.type = MatchType.not_found_on_website)

/-- One report section body: a `for`/`if` pass over the whole summary
(lines 46-49, 51-53, 55-63) writing one rendered row per outcome passing the
section's type test, in summary order. -/
def sectionRows (render : Match → Except String String) (p : Match → Bool) :
    List Match → Except String String
  | [] => Except.ok ""
  | m :: ms =>
    if p m then
      match render m with
      | Except.error e => Except.error e
      | Except.ok row =>
        match sectionRows render p ms with
        | Except.error e => Except.error e
        | Except.ok rest => Except.ok (row ++ rest)
    else sectionRows render p ms

/-- `print_report` (lines 36-63): the full text written to `results.tsv` —
three count lines, then the three headed sections. -/
def print_report (results_summary : List Match) : Except String String :=
  let matched := results_summary.filter isSuccessB
  let zotero_missing := results_summary.filter isNfzB
  let website_missing := results_summary.filter isNfwB
  match sectionRows renderSuccessRow isSuccessB results_summary with
  | Except.error e => Except.error e
  | Except.ok s1 =>
    match sectionRows renderWebsiteOnlyRow isNfzB results_summary with
    | Except.error e => Except.error e
    | Except.ok s2 =>
      match sectionRows renderCatalogOnlyRow isNfwB results_summary with
      | Except.error e => Except.error e
      | Except.ok s3 =>
        Except.ok (Nat.repr matched.length
          ++ " records match on website and Zotero.\n"
          ++ Nat.repr zotero_missing.length
          ++ " records on website not found on Zotero.\n"
          ++ Nat.repr website_missing.length
          ++ " records on Zotero not found on Website\n"
          ++ "Successful matches:\nWebsite title\tZotero title\tSuccess\tRatio\n"
          ++ s1
          ++ "Records on website not found on Zotero:\nWebsite title\n"
          ++ s2
          ++ "Records on Zotero not found on Website:\nZotero title\tauthors\turl\tdate\n"
          ++ s3)

/-- The catalog titles claimed by the `success` outcomes of a summary, in
summary order (each `success` outcome stores the record owning its selected
pool title). -/
def matchedCatalogTitles (s : List Match) : List String :=
  s.filterMap (fun m =>
    match m.type, m.zotero_record with
    | MatchType.success, some r => some r.title
    | _, _ => none)

/-- The format the specification prescribes for one creator in the authors
field: first initial, a period, the last name. -/
def initialDotLast (c : Creator) : String :=
  String.mk (c.firstName.data.take 1) ++ "." ++ c.lastName

/-- Comma-space separated join with no trailing separator, as the
specification describes the authors field. -/
def commaSpaceJoin : List String → String
  | [] => ""
  | [x] => x
  | x :: y :: ys => x ++ ", " ++ commaSpaceJoin (y :: ys)

/-- A concrete scorer usable for concrete runs.  It coincides with the
library scorer (`WRatio` with default processing) on the inputs it is
applied to in this file: identical strings score 100 and strings sharing no
characters score 0. -/
def exactScorer (a b : String) : Nat := if a = b then 100 else 0

/-- A concrete scorer returning the constant 90, used to exercise the
threshold boundary. -/
def constScorer90 (_a _b : String) : Nat := 90

/-- Website record with title `"A"`. -/
def webA1 : WebsiteRecord := WebsiteRecord.mk "A" "x"

/-- A second website record with the same title `"A"`. -/
def webA2 : WebsiteRecord := WebsiteRecord.mk "A" "y"

/-- Website record with title `"C"`. -/
def webC : WebsiteRecord := WebsiteRecord.mk "C" "z"

/-- Catalog record titled `"A"`. -/
def zotA1 : ZoteroRecord :=
  ZoteroRecord.mk "A" [Creator.mk "Jane" "Doe" "author"] (PubDate.mk 2020 1 15) "http://x"

/-- A second catalog record also titled `"A"` but otherwise distinct. -/
def zotA2 : ZoteroRecord :=
  ZoteroRecord.mk "A" [Creator.mk "John" "Roe" "author"] (PubDate.mk 2021 2 2) "http://y"

/-- Catalog record titled `"B"`. -/
def zotB : ZoteroRecord :=
  ZoteroRecord.mk "B" [Creator.mk "Ann" "Lee" "author"] (PubDate.mk 2019 12 3) "http://b"

theorem foldl_max_init_le (l : List Nat) (a : Nat) : a ≤ l.foldl Nat.max a := by
  induction l generalizing a with
  | nil => exact Nat.le_refl a
  | cons x xs ih => exact Nat.le_trans (Nat.le_max_left a x) (ih (Nat.max a x))

theorem foldl_max_mem_le (l : List Nat) (a x : Nat) (hx : x ∈ l) :
    x ≤ l.foldl Nat.max a := by
  induction l generalizing a with
  | nil => cases hx
  | cons y ys ih =>
    rcases List.mem_cons.mp hx with h | h
    · subst h
      exact Nat.le_trans (Nat.le_max_right a x) (foldl_max_init_le ys (Nat.max a x))
    · exact ih (Nat.max a y) h

theorem foldl_max_eq_init_or_mem (l : List Nat) (a : Nat) :
    l.foldl Nat.max a = a ∨ l.foldl Nat.max a ∈ l := by
  induction l generalizing a with
  | nil => exact Or.inl rfl
  | cons y ys ih =>
    rcases ih (Nat.max a y) with h | h
    · rcases Nat.le_total a y with hay | hay
      · right
        have hm : Nat.max a y = y := Nat.max_eq_right hay
        rw [List.foldl_cons, h, hm]
        exact List.mem_cons_self y ys
      · left
        have hm : Nat.max a y = a := Nat.max_eq_left hay
        rw [List.foldl_cons, h, hm]
    · right
      rw [List.foldl_cons]
      exact List.mem_cons_of_mem y h

/-- Every pool score is bounded by `maxScore`. -/
theorem le_maxScore (scorer : String → String → Nat) (query t : String)
    (pool : List String) (ht : t ∈ pool) :
    scorer query t ≤ maxScore scorer query pool :=
  foldl_max_mem_le _ _ _ (List.mem_map_of_mem (scorer query) ht)

/-- On a non-empty pool, `maxScore` is attained by some pool title. -/
theorem maxScore_attained (scorer : String → String → Nat) (query : String)
    (pool : List String) (hp : pool ≠ []) :
    ∃ t ∈ pool, scorer query t = maxScore scorer query pool := by
  rcases foldl_max_eq_init_or_mem (pool.map (scorer query)) 0 with h | h
  · obtain ⟨t, ht⟩ := List.exists_mem_of_ne_nil pool hp
    refine ⟨t, ht, ?_⟩
    have h1 : scorer query t ≤ maxScore scorer query pool := le_maxScore _ _ _ _ ht
    have h0 : maxScore scorer query pool = 0 := h
    omega
  · rcases List.mem_map.mp h with ⟨t, ht, hEq⟩
    exact ⟨t, ht, hEq⟩

/-- On a non-empty pool, the selected title belongs to the pool. -/
theorem selectTitle_mem (scorer : String → String → Nat) (query : String)
    (pool : List String) (hp : pool ≠ []) : selectTitle scorer query pool ∈ pool := by
  obtain ⟨t, ht, hs⟩ := maxScore_attained scorer query pool hp
  have htied : t ∈ pool.filter
      (fun u => decide (scorer query u = maxScore scorer query pool)) :=
    List.mem_filter.mpr ⟨ht, by simp [hs]⟩
  have htne : pool.filter
      (fun u => decide (scorer query u = maxScore scorer query pool)) ≠ [] :=
    List.ne_nil_of_mem htied
  have h5 : (pool.filter
      (fun u => decide (scorer query u = maxScore scorer query pool))).take 5 ≠ [] := by
    intro hnil
    rcases List.take_eq_nil_iff.mp hnil with h | h
    · exact absurd h (by decide)
    · exact htne h
  rw [selectTitle, List.getLast?_eq_getLast_of_ne_nil h5, Option.getD_some]
  exact List.mem_of_mem_filter (List.take_subset 5 _ (List.getLast_mem h5))

/-- On a non-empty pool, the selected title attains the maximal score. -/
theorem selectTitle_score (scorer : String → String → Nat) (query : String)
    (pool : List String) (hp : pool ≠ []) :
    scorer query (selectTitle scorer query pool) = maxScore scorer query pool := by
  obtain ⟨t, ht, hs⟩ := maxScore_attained scorer query pool hp
  have htied : t ∈ pool.filter
      (fun u => decide (scorer query u = maxScore scorer query pool)) :=
    List.mem_filter.mpr ⟨ht, by simp [hs]⟩
  have h5 : (pool.filter
      (fun u => decide (scorer query u = maxScore scorer query pool))).take 5 ≠ [] := by
    intro hnil
    rcases List.take_eq_nil_iff.mp hnil with h | h
    · exact absurd h (by decide)
    · exact List.ne_nil_of_mem htied h
  have hmem : selectTitle scorer query pool ∈ pool.filter
      (fun u => decide (scorer query u = maxScore scorer query pool)) := by
    rw [selectTitle, List.getLast?_eq_getLast_of_ne_nil h5, Option.getD_some]
    exact List.take_subset 5 _ (List.getLast_mem h5)
  simpa using (List.mem_filter.mp hmem).2

/-- A found record's title equals the searched title (line 120's equality). -/
theorem grbt_title_eq (rs : List ZoteroRecord) (t : String) (r : ZoteroRecord)
    (h : get_record_by_title rs t = some r) : r.title = t := by
  induction rs with
  | nil => simp [get_record_by_title] at h
  | cons x xs ih =>
    simp only [get_record_by_title] at h
    by_cases hx : x.title = t
    · rw [if_pos hx] at h
      cases h
      exact hx
    · rw [if_neg hx] at h
      exact ih h

/-- Lookup succeeds for any title occurring among the records' titles. -/
theorem grbt_isSome_of_mem (rs : List ZoteroRecord) (t : String)
    (h : t ∈ rs.map ZoteroRecord.title) :
    ∃ r, get_record_by_title rs t = some r := by
  induction rs with
  | nil => simp at h
  | cons x xs ih =>
    by_cases hx : x.title = t
    · exact ⟨x, by simp [get_record_by_title, hx]⟩
    · have h1 : t ∈ xs.map ZoteroRecord.title := by
        rw [List.map_cons] at h
        rcases List.mem_cons.mp h with h1 | h1
        · exact absurd h1.symm hx
        · exact h1
      rcases ih h1 with ⟨r, hr⟩
      exact ⟨r, by simp [get_record_by_title, hx, hr]⟩

/-- `get_record_by_title` returns the earliest record whose title equals the
searched title: no earlier record carries that title. -/
theorem grbt_first (rs : List ZoteroRecord) (t : String) (r : ZoteroRecord)
    (h : get_record_by_title rs t = some r) :
    ∃ i, ∃ hi : i < rs.length, rs.get ⟨i, hi⟩ = r ∧
      ∀ j, (hj : j < rs.length) → j < i → (rs.get ⟨j, hj⟩).title ≠ t := by
  induction rs with
  | nil => simp [get_record_by_title] at h
  | cons x xs ih =>
    simp only [get_record_by_title] at h
    by_cases hx : x.title = t
    · rw [if_pos hx] at h
      cases h
      exact ⟨0, Nat.succ_pos _, rfl, fun j hj hj0 => absurd hj0 (Nat.not_lt_zero j)⟩
    · rw [if_neg hx] at h
      obtain ⟨i, hi, hget, hearlier⟩ := ih h
      refine ⟨i + 1, Nat.succ_lt_succ hi, hget, ?_⟩
      intro j hj hji
      cases j with
      | zero => exact hx
      | succ j' =>
        exact hearlier j' (Nat.lt_of_succ_lt_succ hj) (Nat.lt_of_succ_lt_succ hji)

/-- Master invariant of the website loop: counts, the final pool as the
initial pool minus the matched titles (erased in match order), multiset
conservation, preservation of the pool-titles-exist-in-catalog invariant,
per-outcome field discipline, and provenance of every stored catalog
record from `get_record_by_title`. -/
theorem compare_loop_spec (scorer : String → String → Nat) (th : Nat)
    (zs : List ZoteroRecord) :
    ∀ (ws : List WebsiteRecord) (pool : List String) (s : List Match)
      (fp : List String),
    (∀ t ∈ pool, t ∈ zs.map ZoteroRecord.title) →
    compare_loop scorer th zs ws pool = Except.ok (s, fp) →
    (s.countP isSuccessB + s.countP isNfzB = ws.length) ∧
    ((matchedCatalogTitles s).length = s.countP isSuccessB) ∧
    (fp = (matchedCatalogTitles s).foldl List.erase pool) ∧
    (List.Perm (matchedCatalogTitles s ++ fp) pool) ∧
    (∀ t ∈ fp, t ∈ zs.map ZoteroRecord.title) ∧
    (∀ m ∈ s,
      (m.type = MatchType.success →
        m.web_record.isSome ∧ m.zotero_record.isSome ∧ th < m.ratio) ∧
      (m.type = MatchType.not_found_on_zotero →
        m.web_record.isSome ∧ m.zotero_record = none ∧ m.ratio ≤ th) ∧
      m.type ≠ MatchType.not_found_on_website) ∧
    (∀ m ∈ s, ∀ r, m.zotero_record = some r →
      get_record_by_title zs r.title = some r) := by
  intro ws
  induction ws with
  | nil =>
    intro pool s fp hsub h
    simp only [compare_loop, Except.ok.injEq, Prod.mk.injEq] at h
    obtain ⟨h1, h2⟩ := h
    subst h1
    subst h2
    refine ⟨rfl, rfl, rfl, List.Perm.refl _, hsub, ?_, ?_⟩
    · intro m hm
      cases hm
    · intro m hm
      cases hm
  | cons w rest ih =>
    intro pool s fp hsub h
    simp only [compare_loop] at h
    by_cases hpool : pool = []
    · rw [if_pos hpool] at h
      cases h
    rw [if_neg hpool] at h
    by_cases hth : th < maxScore scorer w.title pool
    · rw [if_pos hth] at h
      cases hrec : compare_loop scorer th zs rest
          (pool.erase (selectTitle scorer w.title pool)) with
      | error e => rw [hrec] at h; cases h
      | ok pr =>
        obtain ⟨sub, fp'⟩ := pr
        rw [hrec] at h
        simp only [Except.ok.injEq, Prod.mk.injEq] at h
        obtain ⟨h1, h2⟩ := h
        subst h2
        subst h1
        have hsub' : ∀ t ∈ pool.erase (selectTitle scorer w.title pool),
            t ∈ zs.map ZoteroRecord.title :=
          fun t ht => hsub t (List.erase_subset _ _ ht)
        obtain ⟨ihc, ihlen, ihfold, ihperm, ihfp, ihfields, ihget⟩ :=
          ih (pool.erase (selectTitle scorer w.title pool)) sub _ hsub' hrec
        have htmem : selectTitle scorer w.title pool ∈ pool :=
          selectTitle_mem scorer w.title pool hpool
        obtain ⟨r, hr⟩ := grbt_isSome_of_mem zs _ (hsub _ htmem)
        have hrtitle : r.title = selectTitle scorer w.title pool :=
          grbt_title_eq zs _ r hr
        have hmct : matchedCatalogTitles
            (Match.mk MatchType.success (maxScore scorer w.title pool) (some w)
              (get_record_by_title zs (selectTitle scorer w.title pool)) :: sub) =
            selectTitle scorer w.title pool :: matchedCatalogTitles sub := by
          simp [matchedCatalogTitles, List.filterMap_cons, hr, hrtitle]
        refine ⟨?_, ?_, ?_, ?_, ihfp, ?_, ?_⟩
        · simp only [List.countP_cons, isSuccessB, isNfzB, List.length_cons]
          simp only [decide_eq_true_eq, if_true, reduceCtorEq, if_false]
          omega
        · rw [hmct]
          simp only [List.countP_cons, isSuccessB, List.length_cons]
          simp only [decide_eq_true_eq, if_true, reduceCtorEq, if_false]
          omega
        · rw [hmct, List.foldl_cons]
          exact ihfold
        · rw [hmct]
          have hstep : List.Perm
              (selectTitle scorer w.title pool :: (matchedCatalogTitles sub ++ fp'))
              (selectTitle scorer w.title pool ::
                pool.erase (selectTitle scorer w.title pool)) :=
            List.Perm.cons _ ihperm
          exact hstep.trans (List.perm_cons_erase htmem).symm
        · intro m hm
          rcases List.mem_cons.mp hm with hm | hm
          · subst hm
            refine ⟨fun _ => ⟨rfl, ?_, hth⟩, fun hty => ?_, ?_⟩
            · simp [hr]
            · cases hty
            · intro hty
              cases hty
          · exact ihfields m hm
        · intro m hm r' hr'
          rcases List.mem_cons.mp hm with hm | hm
          · subst hm
            simp only at hr'
            rw [hr] at hr'
            cases hr'
            rw [hrtitle]
            exact hr
          · exact ihget m hm r' hr'
    · rw [if_neg hth] at h
      cases hrec : compare_loop scorer th zs rest pool with
      | error e => rw [hrec] at h; cases h
      | ok pr =>
        obtain ⟨sub, fp'⟩ := pr
        rw [hrec] at h
        simp only [Except.ok.injEq, Prod.mk.injEq] at h
        obtain ⟨h1, h2⟩ := h
        subst h2
        subst h1
        obtain ⟨ihc, ihlen, ihfold, ihperm, ihfp, ihfields, ihget⟩ :=
          ih pool sub _ hsub hrec
        have hmct : matchedCatalogTitles
            (Match.mk MatchType.not_found_on_zotero (maxScore scorer w.title pool)
              (some w) none :: sub) = matchedCatalogTitles sub := by
          simp [matchedCatalogTitles, List.filterMap_cons]
        refine ⟨?_, ?_, ?_, ?_, ihfp, ?_, ?_⟩
        · simp only [List.countP_cons, isSuccessB, isNfzB, List.length_cons]
          simp only [decide_eq_true_eq, if_true, reduceCtorEq, if_false]
          omega
        · rw [hmct]
          simp only [List.countP_cons, isSuccessB]
          simp only [decide_eq_true_eq, if_true, reduceCtorEq, if_false]
          omega
        · rw [hmct]
          exact ihfold
        · rw [hmct]
          exact ihperm
        · intro m hm
          rcases List.mem_cons.mp hm with hm | hm
          · subst hm
            refine ⟨fun hty => ?_, fun _ => ⟨rfl, rfl, Nat.le_of_not_lt hth⟩, ?_⟩
            · cases hty
            · intro hty
              cases hty
          · exact ihfields m hm
        · intro m hm r' hr'
          rcases List.mem_cons.mp hm with hm | hm
          · subst hm
            cases hr'
          · exact ihget m hm r' hr'

/-- A leftover-pool outcome is not a `success` outcome. -/
theorem isSuccessB_catalogOnly (zs : List ZoteroRecord) (t : String) :
    isSuccessB (catalogOnlyMatch zs t) = false := rfl

/-- A leftover-pool outcome is not a `not_found_on_zotero` outcome. -/
theorem isNfzB_catalogOnly (zs : List ZoteroRecord) (t : String) :
    isNfzB (catalogOnlyMatch zs t) = false := rfl

/-- A leftover-pool outcome is a `not_found_on_website` outcome. -/
theorem isNfwB_catalogOnly (zs : List ZoteroRecord) (t : String) :
    isNfwB (catalogOnlyMatch zs t) = true := rfl

/-- The leftover-pool outcomes contribute no matched catalog titles. -/
theorem matchedCatalogTitles_mapCatalogOnly (zs : List ZoteroRecord)
    (l : List String) :
    matchedCatalogTitles (l.map (catalogOnlyMatch zs)) = [] := by
  induction l with
  | nil => rfl
  | cons x xs ih =>
    simp only [List.map_cons, matchedCatalogTitles, List.filterMap_cons] at ih ⊢
    exact ih

/-- `matchedCatalogTitles` distributes over append. -/
theorem matchedCatalogTitles_append (a b : List Match) :
    matchedCatalogTitles (a ++ b) = matchedCatalogTitles a ++ matchedCatalogTitles b :=
  List.filterMap_append ..

/-- Destructor for a successful `compare_records` run: the loop succeeded on
the full catalog-title pool and the summary is the loop summary followed by
the leftover-pool outcomes. -/
theorem compare_records_ok (scorer : String → String → Nat) (th : Nat)
    (ws : List WebsiteRecord) (zs : List ZoteroRecord) (s : List Match)
    (h : compare_records scorer ws zs th = Except.ok s) :
    ∃ sw fp, compare_loop scorer th zs ws (zs.map ZoteroRecord.title) =
        Except.ok (sw, fp) ∧
      s = sw ++ fp.map (catalogOnlyMatch zs) := by
  unfold compare_records at h
  cases hrec : compare_loop scorer th zs ws (zs.map ZoteroRecord.title) with
  | error e =>
    rw [hrec] at h
    cases h
  | ok pr =>
    obtain ⟨sw, fp⟩ := pr
    rw [hrec] at h
    simp only [Except.ok.injEq] at h
    exact ⟨sw, fp, rfl, h.symm⟩

/-- Field discipline over the whole returned summary: each outcome type
populates exactly its fields, `success` scores exceed the threshold,
`not_found_on_zotero` scores do not, and `not_found_on_website` outcomes
carry score 0. -/
theorem compare_records_fields (scorer : String → String → Nat) (th : Nat)
    (ws : List WebsiteRecord) (zs : List ZoteroRecord) (s : List Match)
    (h : compare_records scorer ws zs th = Except.ok s) :
    ∀ m ∈ s,
      (m.type = MatchType.success →
        m.web_record.isSome ∧ m.zotero_record.isSome ∧ th < m.ratio) ∧
      (m.type = MatchType.not_found_on_zotero →
        m.web_record.isSome ∧ m.zotero_record = none ∧ m.ratio ≤ th) ∧
      (m.type = MatchType.not_found_on_website →
        m.web_record = none ∧ m.zotero_record.isSome ∧ m.ratio = 0) := by
  obtain ⟨sw, fp, hloop, hs⟩ := compare_records_ok scorer th ws zs s h
  obtain ⟨_, _, _, _, ihfp, ihfields, _⟩ :=
    compare_loop_spec scorer th zs ws (zs.map ZoteroRecord.title) sw fp
      (fun t ht => ht) hloop
  intro m hm
  rw [hs] at hm
  rcases List.mem_append.mp hm with hm | hm
  · obtain ⟨hsucc, hnfz, hnfw⟩ := ihfields m hm
    exact ⟨hsucc, hnfz, fun hty => absurd hty hnfw⟩
  · obtain ⟨t, ht, rfl⟩ := List.mem_map.mp hm
    refine ⟨fun hty => ?_, fun hty => ?_, fun _ => ⟨rfl, ?_, rfl⟩⟩
    · cases hty
    · cases hty
    · obtain ⟨r, hr⟩ := grbt_isSome_of_mem zs t (ihfp t ht)
      simp [catalogOnlyMatch, hr]

/-- Every catalog record stored in any outcome is the `get_record_by_title`
lookup of its own title. -/
theorem compare_records_provenance (scorer : String → String → Nat) (th : Nat)
    (ws : List WebsiteRecord) (zs : List ZoteroRecord) (s : List Match)
    (h : compare_records scorer ws zs th = Except.ok s) :
    ∀ m ∈ s, ∀ r, m.zotero_record = some r →
      get_record_by_title zs r.title = some r := by
  obtain ⟨sw, fp, hloop, hs⟩ := compare_records_ok scorer th ws zs s h
  obtain ⟨_, _, _, _, _, _, ihget⟩ :=
    compare_loop_spec scorer th zs ws (zs.map ZoteroRecord.title) sw fp
      (fun t ht => ht) hloop
  intro m hm r hr
  rw [hs] at hm
  rcases List.mem_append.mp hm with hm | hm
  · exact ihget m hm r hr
  · obtain ⟨t, _, rfl⟩ := List.mem_map.mp hm
    simp only [catalogOnlyMatch] at hr
    have := grbt_title_eq zs t r hr
    rw [this]
    exact hr

/-- C3: for every successful run, reconciliation conserves records: the
`success` and `not_found_on_zotero` outcomes together count the website
records, and the `success` and `not_found_on_website` outcomes together
count the catalog records. -/
theorem c3_conservation (scorer : String → String → Nat)
    (ws : List WebsiteRecord) (zs : List ZoteroRecord) (th : Nat)
    (s : List Match) (h : compare_records scorer ws zs th = Except.ok s) :
    s.countP isSuccessB + s.countP isNfzB = ws.length ∧
    s.countP isSuccessB + s.countP isNfwB = zs.length := by
  obtain ⟨sw, fp, hloop, hs⟩ := compare_records_ok scorer th ws zs s h
  obtain ⟨ihc, ihlen, _, ihperm, _, ihfields, _⟩ :=
    compare_loop_spec scorer th zs ws (zs.map ZoteroRecord.title) sw fp
      (fun t ht => ht) hloop
  have hmapS : (fp.map (catalogOnlyMatch zs)).countP isSuccessB = 0 := by
    rw [List.countP_eq_zero]
    intro m hm
    obtain ⟨t, _, rfl⟩ := List.mem_map.mp hm
    simp [isSuccessB_catalogOnly]
  have hmapZ : (fp.map (catalogOnlyMatch zs)).countP isNfzB = 0 := by
    rw [List.countP_eq_zero]
    intro m hm
    obtain ⟨t, _, rfl⟩ := List.mem_map.mp hm
    simp [isNfzB_catalogOnly]
  have hmapW : (fp.map (catalogOnlyMatch zs)).countP isNfwB = fp.length := by
    have hone : ∀ m ∈ fp.map (catalogOnlyMatch zs), isNfwB m = true := by
      intro m hm
      obtain ⟨t, _, rfl⟩ := List.mem_map.mp hm
      exact isNfwB_catalogOnly zs t
    rw [List.countP_eq_length.mpr hone, List.length_map]
  have hswW : sw.countP isNfwB = 0 := by
    rw [List.countP_eq_zero]
    intro m hm
    have := (ihfields m hm).2.2
    simp [isNfwB]
    exact this
  have hlen := ihperm.length_eq
  rw [List.length_append, List.length_map] at hlen
  rw [hs, List.countP_append, List.countP_append, List.countP_append]
  rw [hmapS, hmapZ, hmapW, hswW]
  omega

/-- C4 counterexample: with two catalog records sharing the title `"A"`, two
website records both titled `"A"` each produce a `success` outcome claiming
catalog title `"A"`, so one catalog title appears in two `Matched`
outcomes. -/
theorem c4_counterexample :
    compare_records exactScorer [webA1, webA2] [zotA1, zotA2] 90 =
      Except.ok [Match.mk MatchType.success 100 (some webA1) (some zotA1),
        Match.mk MatchType.success 100 (some webA2) (some zotA1)] ∧
    ¬ (matchedCatalogTitles
        [Match.mk MatchType.success 100 (some webA1) (some zotA1),
         Match.mk MatchType.success 100 (some webA2) (some zotA1)]).Nodup := by
  constructor
  · rfl
  · decide

/-- C4 amended: when the catalog titles are pairwise distinct, no catalog
title appears in more than one `success` outcome. -/
theorem c4_one_to_one_amended (scorer : String → String → Nat)
    (ws : List WebsiteRecord) (zs : List ZoteroRecord) (th : Nat)
    (s : List Match) (hnd : (zs.map ZoteroRecord.title).Nodup)
    (h : compare_records scorer ws zs th = Except.ok s) :
    (matchedCatalogTitles s).Nodup := by
  obtain ⟨sw, fp, hloop, hs⟩ := compare_records_ok scorer th ws zs s h
  obtain ⟨_, _, _, ihperm, _, _, _⟩ :=
    compare_loop_spec scorer th zs ws (zs.map ZoteroRecord.title) sw fp
      (fun t ht => ht) hloop
  have hall : (matchedCatalogTitles sw ++ fp).Nodup := ihperm.symm.nodup hnd
  rw [hs, matchedCatalogTitles_append, matchedCatalogTitles_mapCatalogOnly,
    List.append_nil]
  exact hall.of_append_left

/-- C9: every catalog record attached to any outcome is resolved by
first-match-by-equality — it sits at some index of the catalog input and no
earlier catalog record carries its title (so under duplicate titles the
earliest record is selected, silently). -/
theorem c9_first_match_by_equality (scorer : String → String → Nat) (th : Nat)
    (ws : List WebsiteRecord) (zs : List ZoteroRecord) (s : List Match)
    (h : compare_records scorer ws zs th = Except.ok s) :
    ∀ m ∈ s, ∀ r, m.zotero_record = some r →
      ∃ i, ∃ hi : i < zs.length, zs.get ⟨i, hi⟩ = r ∧
        ∀ j, (hj : j < zs.length) → j < i → (zs.get ⟨j, hj⟩).title ≠ r.title := by
  intro m hm r hr
  exact grbt_first zs r.title r
    (compare_records_provenance scorer th ws zs s h m hm r hr)

/-- C10: every outcome populates exactly the fields of its variant
(`success`: both records present, score above threshold;
`not_found_on_zotero`: website record present, no catalog record, score at
most threshold; `not_found_on_website`: no website record, catalog record
present, score 0), and all website-derived outcomes precede all
catalog-only outcomes. -/
theorem c10_variant_fields (scorer : String → String → Nat) (th : Nat)
    (ws : List WebsiteRecord) (zs : List ZoteroRecord) (s : List Match)
    (h : compare_records scorer ws zs th = Except.ok s) :
    (∀ m ∈ s,
      (m.type = MatchType.success →
        m.web_record.isSome ∧ m.zotero_record.isSome ∧ th < m.ratio) ∧
      (m.type = MatchType.not_found_on_zotero →
        m.web_record.isSome ∧ m.zotero_record = none ∧ m.ratio ≤ th) ∧
      (m.type = MatchType.not_found_on_website →
        m.web_record = none ∧ m.zotero_record.isSome ∧ m.ratio = 0)) ∧
    ∃ a b, s = a ++ b ∧
      (∀ m ∈ a, m.type ≠ MatchType.not_found_on_website) ∧
      (∀ m ∈ b, m.type = MatchType.not_found_on_website) := by
  refine ⟨compare_records_fields scorer th ws zs s h, ?_⟩
  obtain ⟨sw, fp, hloop, hs⟩ := compare_records_ok scorer th ws zs s h
  obtain ⟨_, _, _, _, _, ihfields, _⟩ :=
    compare_loop_spec scorer th zs ws (zs.map ZoteroRecord.title) sw fp
      (fun t ht => ht) hloop
  refine ⟨sw, fp.map (catalogOnlyMatch zs), hs,
    fun m hm => (ihfields m hm).2.2, ?_⟩
  intro m hm
  obtain ⟨t, _, rfl⟩ := List.mem_map.mp hm
  rfl

/-- C6: the threshold comparison is strict — a first website record whose
best score equals the threshold exactly yields a `not_found_on_zotero`
outcome carrying that score, and every `success` outcome of any run has a
score strictly above the threshold. -/
theorem c6_strict_threshold (scorer : String → String → Nat) (th : Nat)
    (w : WebsiteRecord) (ws : List WebsiteRecord) (zs : List ZoteroRecord)
    (s : List Match) (hzs : zs ≠ [])
    (hmax : maxScore scorer w.title (zs.map ZoteroRecord.title) = th)
    (h : compare_records scorer (w :: ws) zs th = Except.ok s) :
    s.head? = some (Match.mk MatchType.not_found_on_zotero th (some w) none) ∧
    ∀ m ∈ s, m.type = MatchType.success → th < m.ratio := by
  constructor
  · obtain ⟨sw, fp, hloop, hs⟩ := compare_records_ok scorer th (w :: ws) zs s h
    simp only [compare_loop] at hloop
    have hpool : ¬ zs.map ZoteroRecord.title = [] :=
      fun hh => hzs (List.map_eq_nil_iff.mp hh)
    rw [if_neg hpool] at hloop
    have hnotlt : ¬ th < maxScore scorer w.title (zs.map ZoteroRecord.title) := by
      rw [hmax]
      exact Nat.lt_irrefl th
    rw [if_neg hnotlt] at hloop
    cases hrec : compare_loop scorer th zs ws (zs.map ZoteroRecord.title) with
    | error e =>
      rw [hrec] at hloop
      cases hloop
    | ok pr =>
      obtain ⟨sub, fp'⟩ := pr
      rw [hrec] at hloop
      simp only [Except.ok.injEq, Prod.mk.injEq] at hloop
      obtain ⟨h1, h2⟩ := hloop
      rw [hs, ← h1, hmax]
      rfl
  · intro m hm hty
    exact (((compare_records_fields scorer th (w :: ws) zs s h) m hm).1 hty).2.2

/-- Concatenation of the rendered rows of a list of outcomes, in order
(the text a report section writes when every listed outcome passes its
type test). -/
def renderedRows (render : Match → Except String String) :
    List Match → Except String String
  | [] => Except.ok ""
  | m :: ms =>
    match render m with
    | Except.error e => Except.error e
    | Except.ok row =>
      match renderedRows render ms with
      | Except.error e => Except.error e
      | Except.ok rest => Except.ok (row ++ rest)

/-- A report section renders exactly the outcomes passing its type test, in
summary order. -/
theorem sectionRows_eq_renderedRows (render : Match → Except String String)
    (p : Match → Bool) : ∀ l, sectionRows render p l = renderedRows render (l.filter p) := by
  intro l
  induction l with
  | nil => rfl
  | cons m ms ih =>
    cases hp : p m with
    | true =>
      rw [List.filter_cons_of_pos hp]
      simp only [sectionRows, hp, if_true, renderedRows, ih]
    | false =>
      rw [List.filter_cons_of_neg (by simp [hp])]
      simp [sectionRows, hp, ih]

/-- C7: the `not_found_on_website` outcomes of a successful run are exactly
the leftover-pool outcomes in catalog-pool-remainder order — the catalog
input titles with the matched titles erased, in order — and the rendered
catalog-only report section is the concatenation of the rows of exactly
those outcomes in that order. -/
theorem c7_catalog_only_order (scorer : String → String → Nat) (th : Nat)
    (ws : List WebsiteRecord) (zs : List ZoteroRecord) (s : List Match)
    (h : compare_records scorer ws zs th = Except.ok s) :
    s.filter isNfwB =
      ((matchedCatalogTitles s).foldl List.erase
        (zs.map ZoteroRecord.title)).map (catalogOnlyMatch zs) ∧
    sectionRows renderCatalogOnlyRow isNfwB s =
      renderedRows renderCatalogOnlyRow
        (((matchedCatalogTitles s).foldl List.erase
          (zs.map ZoteroRecord.title)).map (catalogOnlyMatch zs)) := by
  obtain ⟨sw, fp, hloop, hs⟩ := compare_records_ok scorer th ws zs s h
  obtain ⟨_, _, ihfold, _, _, ihfields, _⟩ :=
    compare_loop_spec scorer th zs ws (zs.map ZoteroRecord.title) sw fp
      (fun t ht => ht) hloop
  have hmct : matchedCatalogTitles s = matchedCatalogTitles sw := by
    rw [hs, matchedCatalogTitles_append, matchedCatalogTitles_mapCatalogOnly,
      List.append_nil]
  have hfil : s.filter isNfwB = fp.map (catalogOnlyMatch zs) := by
    have hswnil : sw.filter isNfwB = [] := by
      rw [List.filter_eq_nil_iff]
      intro m hm
      have := (ihfields m hm).2.2
      simp [isNfwB]
      exact this
    have hmapself : (fp.map (catalogOnlyMatch zs)).filter isNfwB =
        fp.map (catalogOnlyMatch zs) := by
      rw [List.filter_eq_self]
      intro m hm
      obtain ⟨t, _, rfl⟩ := List.mem_map.mp hm
      exact isNfwB_catalogOnly zs t
    rw [hs, List.filter_append, hswnil, hmapself, List.nil_append]
  have hrem : ((matchedCatalogTitles s).foldl List.erase
      (zs.map ZoteroRecord.title)) = fp := by
    rw [hmct, ← ihfold]
  rw [hrem]
  exact ⟨hfil, by rw [sectionRows_eq_renderedRows, hfil]⟩

/-- Plain concatenation of a list of strings, in order. -/
def concatAll : List String → String
  | [] => ""
  | x :: xs => x ++ concatAll xs

theorem str_mk_data (s : String) : String.mk s.data = s := by
  cases s
  rfl

theorem str_data_append (a b : String) : (a ++ b).data = a.data ++ b.data := by
  cases a
  cases b
  rfl

theorem str_append_of_data (a b : String) :
    String.mk (a.data ++ b.data) = a ++ b := by
  cases a
  cases b
  rfl

/-- The authors accumulation loop, when it succeeds, produces the
concatenation of one comma-space-suffixed entry per creator of role
`"author"`, in creator order. -/
theorem renderAuthorsLoop_char (cs : List Creator) (t : String)
    (h : renderAuthorsLoop cs = Except.ok t) :
    t = concatAll
      ((cs.filter (fun c => decide (c.creatorType = "author"))).map
        (fun c => initialDotLast c ++ ", ")) := by
  induction cs generalizing t with
  | nil =>
    simp only [renderAuthorsLoop, Except.ok.injEq] at h
    rw [← h]
    rfl
  | cons c cs ih =>
    simp only [renderAuthorsLoop] at h
    by_cases hc : c.creatorType = "author"
    · rw [if_pos hc] at h
      cases hd : c.firstName.data with
      | nil =>
        rw [show pyHead c.firstName = Except.error
            "IndexError: string index out of range" by
          simp [pyHead, hd]] at h
        cases h
      | cons ch tl =>
        rw [show pyHead c.firstName = Except.ok ch by simp [pyHead, hd]] at h
        cases hrec : renderAuthorsLoop cs with
        | error e =>
          rw [hrec] at h
          cases h
        | ok rest =>
          rw [hrec] at h
          simp only [Except.ok.injEq] at h
          rw [← h, ih rest hrec, List.filter_cons_of_pos (by simp [hc]),
            List.map_cons]
          show String.mk [ch] ++ "." ++ c.lastName ++ ", " ++ _ =
            (initialDotLast c ++ ", ") ++ _
          rw [initialDotLast, hd, List.take_cons, List.take_zero]
          simp [String.append_assoc]
    · rw [if_neg hc] at h
      rw [ih t h, List.filter_cons_of_neg (by simp [hc])]

theorem concat_suffix_len (x : String) (xs : List String) :
    2 ≤ (concatAll ((x :: xs).map (fun u => u ++ ", "))).data.length := by
  have h1 : concatAll ((x :: xs).map (fun u => u ++ ", ")) =
      (x ++ ", ") ++ concatAll (xs.map (fun u => u ++ ", ")) := rfl
  rw [h1, str_data_append, str_data_append, List.length_append,
    List.length_append]
  have h2 : (", " : String).data.length = 2 := rfl
  omega

/-- Stripping the final two characters from a concatenation of
comma-space-suffixed entries yields the comma-space-separated join with no
trailing separator. -/
theorem pyDropLast2_concat (items : List String) :
    pyDropLast2 (concatAll (items.map (fun u => u ++ ", "))) =
      commaSpaceJoin items := by
  induction items with
  | nil => rfl
  | cons x xs ih =>
    cases xs with
    | nil =>
      show pyDropLast2 ((x ++ ", ") ++ "") = x
      have hd : ((x ++ ", ") ++ "").data = x.data ++ [',', ' '] := by
        rw [str_data_append, str_data_append]
        have he : ("" : String).data = [] := rfl
        have hc : (", " : String).data = [',', ' '] := rfl
        rw [he, hc, List.append_nil]
      simp only [pyDropLast2, hd, List.length_append]
      have h2 : ([',', ' '] : List Char).length = 2 := rfl
      have h3 : x.data.length + ([',', ' '] : List Char).length - 2 =
          x.data.length + 0 := by
        omega
      rw [h3, List.take_append, List.take_zero, List.append_nil, str_mk_data]
    | cons y ys =>
      have hT := concat_suffix_len y ys
      have hcj : commaSpaceJoin (x :: y :: ys) =
          (x ++ ", ") ++ commaSpaceJoin (y :: ys) := rfl
      rw [hcj, ← ih]
      show pyDropLast2 ((x ++ ", ") ++
        concatAll ((y :: ys).map (fun u => u ++ ", "))) = _
      simp only [pyDropLast2, str_data_append, List.length_append]
      have h2 : ([',', ' '] : List Char).length = 2 := rfl
      have harith : x.data.length + ([',', ' '] : List Char).length +
          (concatAll ((y :: ys).map (fun u => u ++ ", "))).data.length - 2 =
          (x.data ++ [',', ' ']).length +
          ((concatAll ((y :: ys).map (fun u => u ++ ", "))).data.length - 2) := by
        rw [List.length_append]
        omega
      rw [harith, List.take_append]
      exact str_append_of_data (x ++ ", ")
        (String.mk ((concatAll ((y :: ys).map (fun u => u ++ ", "))).data.take
          ((concatAll ((y :: ys).map (fun u => u ++ ", "))).data.length - 2)))

/-- Lines 57-61 compute exactly the specification's authors field: the
creators of role `"author"`, each as first initial, period, last name,
comma-space separated with no trailing separator. -/
theorem renderAuthors_char (creators : List Creator) (s : String)
    (h : renderAuthors creators = Except.ok s) :
    s = commaSpaceJoin
      ((creators.filter (fun c => decide (c.creatorType = "author"))).map
        initialDotLast) := by
  simp only [renderAuthors] at h
  cases hrec : renderAuthorsLoop creators with
  | error e =>
    rw [hrec] at h
    cases h
  | ok u =>
    rw [hrec] at h
    simp only [Except.ok.injEq] at h
    rw [← h, renderAuthorsLoop_char creators u hrec]
    have hp := pyDropLast2_concat
      ((creators.filter (fun c => decide (c.creatorType = "author"))).map
        initialDotLast)
    rw [List.map_map] at hp
    exact hp

/-- C8: every rendered catalog-only row carries an authors field holding
exactly the creators of role `"author"` (other roles excluded), each
formatted as first initial, period, last name, joined by comma-space with
no trailing separator, between the title and the url/date fields. -/
theorem c8_authors_field (m : Match) (r : ZoteroRecord) (line : String)
    (hz : m.zotero_record = some r)
    (h : renderCatalogOnlyRow m = Except.ok line) :
    renderAuthors r.authors = Except.ok (commaSpaceJoin
      ((r.authors.filter (fun c => decide (c.creatorType = "author"))).map
        initialDotLast)) ∧
    line = r.title ++ "\t" ++ commaSpaceJoin
        ((r.authors.filter (fun c => decide (c.creatorType = "author"))).map
          initialDotLast) ++ "\t" ++ r.url ++ "\t" ++ strftimeYMD r.date
        ++ "\n" := by
  simp only [renderCatalogOnlyRow, hz] at h
  cases hra : renderAuthors r.authors with
  | error e =>
    rw [hra] at h
    cases h
  | ok a =>
    rw [hra] at h
    simp only [Except.ok.injEq] at h
    have hchar := renderAuthors_char r.authors a hra
    subst hchar
    exact ⟨rfl, h.symm⟩

/-- C1 (failing input): on the well-typed input of one website record and an
empty catalog list, `compare_records` does not return a summary — it
reproduces the `ValueError` of `max()` on an empty sequence, refuting the
never-fails contract. -/
theorem c1_raises_on_empty_pool :
    compare_records exactScorer [webA1, webC] [] 90 =
      Except.error "max() arg is an empty sequence" := rfl

/-- C2 (failing input): on the specification's empty-catalog scenario
(`website_records = [{title:"A"}]`, `catalog_records = []`) the code raises
instead of producing one `not_found_on_zotero` outcome with score 0. -/
theorem c2_empty_catalog_raises :
    compare_records exactScorer [webA1] [] 90 =
      Except.error "max() arg is an empty sequence" := rfl

/-- C5 (failing input): two website records both scoring above the threshold
against the single catalog title `"A"` — the first is matched and removes
the only pool title, and processing the second raises the empty-sequence
`ValueError` instead of yielding a `not_found_on_zotero` outcome. -/
theorem c5_greedy_second_raises :
    compare_records exactScorer [webA1, webA2] [zotA1] 90 =
      Except.error "max() arg is an empty sequence" ∧
    exactScorer webA1.title zotA1.title = 100 ∧
    exactScorer webA2.title zotA1.title = 100 := by
  exact ⟨rfl, rfl, rfl⟩

/-- Summary returned for websites `["A", "C"]` against catalog `["A", "B"]`
with the exact scorer at threshold 90. -/
def runA_summary : List Match :=
  [Match.mk MatchType.success 100 (some webA1) (some zotA1),
   Match.mk MatchType.not_found_on_zotero 0 (some webC) none,
   Match.mk MatchType.not_found_on_website 0 none (some zotB)]

/-- Summary returned for website `["A"]` against the duplicate-titled
catalog `["A", "A"]` with the exact scorer at threshold 90: both outcomes
reference the first `"A"` record. -/
def runB_summary : List Match :=
  [Match.mk MatchType.success 100 (some webA1) (some zotA1),
   Match.mk MatchType.not_found_on_website 0 none (some zotA1)]

/-- Summary returned for website `["A"]` against catalog `["B"]` with the
constant-90 scorer at threshold 90: the boundary score is rejected. -/
def runC_summary : List Match :=
  [Match.mk MatchType.not_found_on_zotero 90 (some webA1) none,
   Match.mk MatchType.not_found_on_website 0 none (some zotB)]

/-- The specification's author-filtering example record. -/
def zotSmithJones : ZoteroRecord :=
  ZoteroRecord.mk "T"
    [Creator.mk "A" "Smith" "editor", Creator.mk "B" "Jones" "author"]
    (PubDate.mk 2020 1 15) "http://x"

/-- A catalog-only outcome carrying the author-filtering example record. -/
def mSmithJones : Match :=
  Match.mk MatchType.not_found_on_website 0 none (some zotSmithJones)

theorem c3_conservation_witness :
    runA_summary.countP isSuccessB + runA_summary.countP isNfzB =
      ([webA1, webC] : List WebsiteRecord).length ∧
    runA_summary.countP isSuccessB + runA_summary.countP isNfwB =
      ([zotA1, zotB] : List ZoteroRecord).length :=
  c3_conservation exactScorer [webA1, webC] [zotA1, zotB] 90 runA_summary rfl

theorem c4_one_to_one_amended_witness :
    (matchedCatalogTitles runA_summary).Nodup :=
  c4_one_to_one_amended exactScorer [webA1, webC] [zotA1, zotB] 90
    runA_summary (by decide) rfl

theorem c6_strict_threshold_witness :
    runC_summary.head? =
      some (Match.mk MatchType.not_found_on_zotero 90 (some webA1) none) ∧
    ∀ m ∈ runC_summary, m.type = MatchType.success → 90 < m.ratio :=
  c6_strict_threshold constScorer90 90 webA1 [] [zotB] runC_summary
    (by decide) rfl rfl

theorem c7_catalog_only_order_witness :
    runA_summary.filter isNfwB =
      ((matchedCatalogTitles runA_summary).foldl List.erase
        (([zotA1, zotB] : List ZoteroRecord).map ZoteroRecord.title)).map
        (catalogOnlyMatch [zotA1, zotB]) ∧
    sectionRows renderCatalogOnlyRow isNfwB runA_summary =
      renderedRows renderCatalogOnlyRow
        (((matchedCatalogTitles runA_summary).foldl List.erase
          (([zotA1, zotB] : List ZoteroRecord).map ZoteroRecord.title)).map
          (catalogOnlyMatch [zotA1, zotB])) :=
  c7_catalog_only_order exactScorer 90 [webA1, webC] [zotA1, zotB]
    runA_summary rfl

theorem c8_authors_field_witness :
    renderAuthors zotSmithJones.authors = Except.ok (commaSpaceJoin
      ((zotSmithJones.authors.filter
        (fun c => decide (c.creatorType = "author"))).map initialDotLast)) ∧
    "T\tB.Jones\thttp://x\t2020/01/15\n" =
      zotSmithJones.title ++ "\t" ++ commaSpaceJoin
        ((zotSmithJones.authors.filter
          (fun c => decide (c.creatorType = "author"))).map initialDotLast)
        ++ "\t" ++ zotSmithJones.url ++ "\t" ++ strftimeYMD zotSmithJones.date
        ++ "\n" :=
  c8_authors_field mSmithJones zotSmithJones
    "T\tB.Jones\thttp://x\t2020/01/15\n" rfl rfl

theorem c9_first_match_by_equality_witness :
    ∃ i, ∃ hi : i < ([zotA1, zotA2] : List ZoteroRecord).length,
      ([zotA1, zotA2] : List ZoteroRecord).get ⟨i, hi⟩ = zotA1 ∧
      ∀ j, (hj : j < ([zotA1, zotA2] : List ZoteroRecord).length) → j < i →
        (([zotA1, zotA2] : List ZoteroRecord).get ⟨j, hj⟩).title ≠
          zotA1.title :=
  c9_first_match_by_equality exactScorer 90 [webA1] [zotA1, zotA2]
    runB_summary rfl
    (Match.mk MatchType.success 100 (some webA1) (some zotA1))
    (by decide) zotA1 rfl

theorem c10_variant_fields_witness :
    (∀ m ∈ runA_summary,
      (m.type = MatchType.success →
        m.web_record.isSome ∧ m.zotero_record.isSome ∧ 90 < m.ratio) ∧
      (m.type = MatchType.not_found_on_zotero →
        m.web_record.isSome ∧ m.zotero_record = none ∧ m.ratio ≤ 90) ∧
      (m.type = MatchType.not_found_on_website →
        m.web_record = none ∧ m.zotero_record.isSome ∧ m.ratio = 0)) ∧
    ∃ a b, runA_summary = a ++ b ∧
      (∀ m ∈ a, m.type ≠ MatchType.not_found_on_website) ∧
      (∀ m ∈ b, m.type = MatchType.not_found_on_website) :=
  c10_variant_fields exactScorer 90 [webA1, webC] [zotA1, zotB]
    runA_summary rfl
